import Mathlib

/-!
Verification development for FFmpeg's detelecine filter
(`libavfilter/vf_detelecine.c`).

The C file is shallowly embedded below.  Machine integers are modelled as
`Nat`/`Int` (the values involved — digit sums, pattern positions, skip
counters — are small and nonnegative, and `int64_t` timestamps are
modelled as `Int` with the `AV_NOPTS_VALUE` sentinel kept explicit).
Pixel data is modelled at row granularity: a plane is a list of rows and a
row is an opaque value (`Nat`); `av_image_copy_plane` moves whole rows, so
its byte-width argument (`stride`) is carried in the state but does not
further refine the model.  Fallible operations return `Except`/`Option`.

Helpers from `libavutil` that are not part of the given source
(`av_mul_q`, `av_inv_q`, `av_rescale`, `av_image_copy_plane`,
`av_image_fill_linesizes`, `av_pix_fmt_count_planes`) are modelled from
the spec, as marked on their doc comments.
-/

/-- `AV_NOPTS_VALUE` (`INT64_MIN`): the sentinel for "no timestamp". -/
def AV_NOPTS_VALUE : ℤ := -9223372036854775808

/-- Error kinds reported by `init`, named as in the spec (§7): the C code
returns `AVERROR_INVALIDDATA` for all three failures, with distinct log
messages; "No pattern provided" and "non-numeric characters" are
`invalidPattern`, "start_frame is too big" is `invalidPhase`. -/
inductive InitError where
  | invalidPattern
  | invalidPhase
deriving DecidableEq, Repr

/-- The fields of `DetelecineContext` that `init` (lines 80-135) fills in:
the compiled digit list, the accumulated `pts` rational (`pts.num`,
`pts.den`), and the cursor state for `filter_frame`. -/
structure InitResult where
  digits : List ℕ
  pts_num : ℕ
  pts_den : ℕ
  nskip_fields : ℕ
  pattern_pos : ℕ
  start_time : ℤ
  init_len : ℕ
deriving DecidableEq, Repr

instance {ε α : Type} [DecidableEq ε] [DecidableEq α] : DecidableEq (Except ε α) := fun a b =>
  match a, b with
  | .error e, .error f =>
    if h : e = f then isTrue (by rw [h]) else isFalse (by simp [h])
  | .error _, .ok _ => isFalse (by simp)
  | .ok _, .error _ => isFalse (by simp)
  | .ok x, .ok y =>
    if h : x = y then isTrue (by rw [h]) else isFalse (by simp [h])

/-- Digit values of the pattern string: `*p - '0'` for each character. -/
def digitsOf (pat : String) : List ℕ := pat.data.map fun c => c.toNat - 48

/-- The `start_frame` walk of `init` (lines 114-129): advance through the
pattern accumulating field counts (`nfields`) and incrementing
`pattern_pos`, breaking when `nfields >= 2*start_frame` with
`init_len = nfields - 2*start_frame`.  If the loop exhausts the pattern
without reaching the target, `pattern_pos` ends at the pattern length and
`init_len` keeps its initial value `0`. -/
def phaseWalk (target : ℕ) : List ℕ → ℕ → ℕ → ℕ × ℕ
  | [], _, pos => (pos, 0)
  | d :: ds, nf, pos =>
    if target ≤ nf + d then (pos + 1, nf + d - target)
    else phaseWalk target ds (nf + d) (pos + 1)

/-- `init` (lines 80-135): validate the pattern string, accumulate the
`pts` rational (`num += digit`, `den += 2` per character), reject a
`start_frame` that is `>= sum`, and run the phase walk when
`start_frame != 0`.  (`max` is computed in C only for an informational
log message and is not part of the returned state.) -/
def init (pat : String) (start_frame : ℕ) : Except InitError InitResult :=
  if pat.data.length = 0 then .error .invalidPattern
  else if ¬ pat.data.all Char.isDigit then .error .invalidPattern
  else
    let digits := digitsOf pat
    let sum := digits.sum
    if sum ≤ start_frame then .error .invalidPhase
    else
      let pw := if start_frame ≠ 0 then phaseWalk (2 * start_frame) digits 0 0 else (0, 0)
      .ok { digits := digits, pts_num := sum, pts_den := 2 * digits.length,
            nskip_fields := 0, pattern_pos := pw.1, start_time := AV_NOPTS_VALUE,
            init_len := pw.2 }

/-- One pixel plane, as a list of rows; rows are opaque values. -/
def PFrame : Type := List (List ℕ)

instance : DecidableEq PFrame := by unfold PFrame; exact inferInstance

instance : Inhabited PFrame := ⟨([] : List (List ℕ))⟩

/-- The engine state: `DetelecineContext` (lines 35-62) restricted to the
fields `filter_frame` reads or writes, plus `frame_count_in`, the host
framework's count of frames already sent on the output link (used at
line 394).  The C `pattern` string is carried as its digit values; the
`stride`/`planeheight` arrays of 4 are modelled as total functions.
The two output slots `frame[2]` are omitted: every row of a slot is
overwritten before the slot is cloned for emission, so a slot's contents
never survive from one use to the next. -/
structure DetelecineContext where
  first_field : ℕ
  pattern : List ℕ
  init_len : ℕ
  pattern_pos : ℕ
  nskip_fields : ℕ
  start_time : ℤ
  ts_unit_num : ℤ
  ts_unit_den : ℤ
  occupied : Bool
  nb_planes : ℕ
  planeheight : ℕ → ℕ
  stride : ℕ → ℕ
  temp : PFrame
  frame_count_in : ℕ

/-- Build the engine state handed to `filter_frame` from the `init`
result plus the configured geometry and timestamp unit.  `occupied`
starts `false` (the context is zero-initialized) and no frame has been
sent downstream yet. -/
def initContext (r : InitResult) (ff : ℕ) (tsn tsd : ℤ) (nbp : ℕ)
    (ph st : ℕ → ℕ) (tmp : PFrame) : DetelecineContext :=
  { first_field := ff, pattern := r.digits, init_len := r.init_len,
    pattern_pos := r.pattern_pos, nskip_fields := r.nskip_fields,
    start_time := r.start_time, ts_unit_num := tsn, ts_unit_den := tsd,
    occupied := false, nb_planes := nbp, planeheight := ph, stride := st,
    temp := tmp, frame_count_in := 0 }

/-- Modelled from the spec: `av_image_copy_plane` copies the given number
of rows from source to destination; the full-frame copy loops
(lines 228-233, 268-272, 313-317, 332-336, 353-363) copy
`planeheight[i]` rows of each of the `nb_planes` planes. -/
def copyFrame (s : DetelecineContext) (src : PFrame) : PFrame :=
  (List.range s.nb_planes).map fun i =>
    (List.range (s.planeheight i)).map fun j => (src.getD i []).getD j 0

/-- The interleaving copy pair (lines 288-303): for each plane, rows with
parity `first_field` (offset `linesize*first_field`, step `linesize*2`,
count `(planeheight - first_field + 1)/2`) come from the current input
frame, and rows with the opposite parity come from the buffered `temp`
frame. -/
def interleaveFrame (s : DetelecineContext) (inp tmp : PFrame) : PFrame :=
  (List.range s.nb_planes).map fun i =>
    (List.range (s.planeheight i)).map fun j =>
      if j % 2 = s.first_field then (inp.getD i []).getD j 0
      else (tmp.getD i []).getD j 0

/-- The field-span search loop (lines 246-249 and 275-278):
`while (!len && pattern[pos]) { len = pattern[pos] - '0'; pos++; }`.
Reading position `pos` of the C string yields the terminating NUL
exactly when `pos` is past the digits, so the loop scans the suffix
`pat.drop pos` for the first non-zero digit, leaving the cursor one past
the digit it consumed.  There is no wrap-around inside the loop. -/
def searchFrom : List ℕ → ℕ → ℕ × ℕ
  | [], pos => (0, pos)
  | d :: ds, pos => if d = 0 then searchFrom ds (pos + 1) else (d, pos + 1)

/-- The search loop including its entry condition `!len`. -/
def searchLen (pat : List ℕ) (pos len : ℕ) : ℕ × ℕ :=
  if len = 0 then searchFrom (pat.drop pos) pos else (len, pos)

/-- The cursor reset after each search loop (lines 251-252 and 280-281):
`if (!pattern[pattern_pos]) pattern_pos = 0;` — a position at or past the
end of the pattern (where the C string holds NUL) becomes `0`. -/
def normPos (pat : List ℕ) (pos : ℕ) : ℕ := if pos < pat.length then pos else 0

/-- Result of one phase of the consume path: updated state, the output
frames built so far by this phase, and the running `len`. -/
structure CPhase where
  state : DetelecineContext
  built : List PFrame
  len : ℕ

/-- The single-field-frame-with-pending-buffer special case
(lines 259-285): if `len == 1` and `temp` is occupied, flush `temp`
verbatim as an output frame, clear `occupied`, and rerun the search loop
(with its cursor reset) to find the next `len`. -/
def consumeSpecial (s : DetelecineContext) (len : ℕ) : CPhase :=
  if len = 1 ∧ s.occupied then
    let s := { s with occupied := false }
    let o := copyFrame s s.temp
    let r := searchLen s.pattern s.pattern_pos 0
    ⟨{ s with pattern_pos := normPos s.pattern r.2, occupied := false }, [o], r.1⟩
  else ⟨s, [], len⟩

/-- The main consume branches (lines 287-369).  Occupied: build one
output by interleaving the earlier field of the current input frame with
the later field of `temp`; if `len <= 2` the input frame's leftover field
is re-buffered into `temp`; then `len = (len >= 3) ? len - 3 : 0`.
Not occupied: `len >= 2` emits the input frame verbatim and drops `len`
by 2; `len == 1` emits the input frame verbatim, buffers it into `temp`,
and decrements `len`. -/
def consumeMain (s : DetelecineContext) (inp : PFrame) (len : ℕ) : CPhase :=
  if s.occupied then
    let o := interleaveFrame s inp s.temp
    let s := { s with occupied := false }
    let s := if len ≤ 2 then { s with temp := copyFrame s inp, occupied := true } else s
    ⟨s, [o], if 3 ≤ len then len - 3 else 0⟩
  else if 2 ≤ len then
    ⟨s, [copyFrame s inp], len - 2⟩
  else if len = 1 then
    ⟨{ s with temp := copyFrame s inp, occupied := true }, [copyFrame s inp], len - 1⟩
  else
    ⟨s, [], len⟩

/-- The post-adjustment and skip-counter store (lines 371-382):
`if (len == 1 && occupied) { len--; occupied = 0; }` then
`nskip_fields = len`. -/
def consumePost (s : DetelecineContext) (len : ℕ) : DetelecineContext :=
  if len = 1 ∧ s.occupied then { s with occupied := false, nskip_fields := 0 }
  else { s with nskip_fields := len }

/-- Result of `filter_frame` before the emission loop: updated state, the
built output contents, and whether `av_frame_free(&inpicref)` was
executed on the path taken. -/
structure ConsumeResult where
  state : DetelecineContext
  built : List PFrame
  freed : Bool

/-- The consume path of `filter_frame` (lines 239-382), entered when
`nskip_fields == 0`: take `init_len` as the initial `len` (clearing it),
run the search loop and cursor reset, discard the input frame when no
non-zero `len` was found (line 254-257, with `av_frame_free`), otherwise
run the special case, the main branches and the post-adjustment. -/
def consumeStep (s : DetelecineContext) (inp : PFrame) : ConsumeResult :=
  let r := searchLen s.pattern s.pattern_pos s.init_len
  let s1 := { s with init_len := 0, pattern_pos := normPos s.pattern r.2 }
  if r.1 = 0 then ⟨s1, [], true⟩
  else
    let c1 := consumeSpecial s1 r.1
    let c2 := consumeMain c1.state inp c1.len
    ⟨consumePost c2.state c2.len, c1.built ++ c2.built, true⟩

/-- An input frame: plane data plus a presentation timestamp. -/
structure InFrame where
  content : PFrame
  pts : ℤ
deriving DecidableEq

/-- An emitted output frame: plane data plus the computed timestamp. -/
structure OutFrame where
  content : PFrame
  pts : ℤ
deriving DecidableEq

/-- Result of one `filter_frame` call. -/
structure StepResult where
  state : DetelecineContext
  outputs : List OutFrame
  freed : Bool

/-- Modelled from the spec: `av_rescale` (libavutil) computes
`round(a * b / c)` — nearest integer, ties rounded away from zero — for
the nonnegative `a` and positive `c` used at line 394. -/
def avRescale (a : ℕ) (b c : ℤ) : ℤ := ((a : ℤ) * b + c / 2) / c

/-- The emission loop (lines 384-397): each built frame is cloned, gets
its properties from the input frame, and is stamped
`base + av_rescale(frame_count_in, ts_unit.num, ts_unit.den)` before
being sent downstream (which increments `frame_count_in`). -/
def emitFrames (base num den : ℤ) : ℕ → List PFrame → List OutFrame
  | _, [] => []
  | n, f :: fs => ⟨f, base + avRescale n num den⟩ :: emitFrames base num den (n + 1) fs

/-- The `start_time` capture at lines 220-221:
`if (s->start_time == AV_NOPTS_VALUE) s->start_time = inpicref->pts;`. -/
def captureStart (s : DetelecineContext) (p : ℤ) : DetelecineContext :=
  if s.start_time = AV_NOPTS_VALUE then { s with start_time := p } else s

/-- `filter_frame` after the `start_time` capture (lines 223-402): with
`nskip_fields >= 2` drop two fields and return with no output (no
`av_frame_free` of the input frame on this path); with
`nskip_fields == 1` buffer the whole input frame into `temp` and return
with no output (again without `av_frame_free`); otherwise run the
consume path and emit the built frames, each stamped at the current
`frame_count_in` (which delivery increments). -/
def filter_frame_body (s : DetelecineContext) (inp : PFrame) : StepResult :=
  if 2 ≤ s.nskip_fields then
    ⟨{ s with nskip_fields := s.nskip_fields - 2 }, [], false⟩
  else if 1 ≤ s.nskip_fields then
    let s' : DetelecineContext :=
      { s with temp := copyFrame s inp, occupied := true,
               nskip_fields := s.nskip_fields - 1 }
    ⟨s', [], false⟩
  else
    let r := consumeStep s inp
    let base := if r.state.start_time = AV_NOPTS_VALUE then 0 else r.state.start_time
    ⟨{ r.state with frame_count_in := r.state.frame_count_in + r.built.length },
      emitFrames base r.state.ts_unit_num r.state.ts_unit_den r.state.frame_count_in r.built,
      r.freed⟩

/-- `filter_frame` (lines 210-402). -/
def filter_frame (s : DetelecineContext) (inpicref : InFrame) : StepResult :=
  filter_frame_body (captureStart s inpicref.pts) inpicref.content

/-- Feed a list of input frames through `filter_frame`, collecting the
emitted output frames in call order. -/
def runEngine (s : DetelecineContext) : List InFrame → DetelecineContext × List OutFrame
  | [] => (s, [])
  | f :: fs =>
    let r := filter_frame s f
    let rest := runEngine r.state fs
    (rest.1, r.outputs ++ rest.2)

/-- Rate negotiation state produced by `config_output`. -/
structure ConfigOut where
  frame_rate : ℚ
  time_base : ℚ
  ts_unit : ℚ
deriving DecidableEq, Repr

/-- `config_output` (lines 184-208), with `av_mul_q`/`av_inv_q` modelled
from the spec as exact rational arithmetic over `ℚ`.  The C code rejects
an input rate whose numerator or denominator is zero; a zero denominator
has no `ℚ` counterpart, so the model's guard is `in_rate = 0`.  It then
sets `frame_rate = in_rate * pts⁻¹`, `time_base = in_tb * pts`, and
`ts_unit = (frame_rate * time_base)⁻¹`, where `pts` is the rational
accumulated by `init`. -/
def config_output (in_rate in_tb pts : ℚ) : Option ConfigOut :=
  if in_rate = 0 then none
  else
    let fps := in_rate * pts⁻¹
    let tb := in_tb * pts
    some { frame_rate := fps, time_base := tb, ts_unit := (fps * tb)⁻¹ }

/-- Modelled from the spec: the per-pixel-format data `config_input`
consults — `av_pix_fmt_count_planes`, `av_image_fill_linesizes` (a pure
function of format and width), and the descriptor's `log2_chroma_h`. -/
structure PixFmtDesc where
  log2_chroma_h : ℕ
  linesizes : ℕ → ℕ → ℕ
  nb_planes : ℕ

/-- `AV_CEIL_RSHIFT(a, b) = (a + (1 << b) - 1) >> b`. -/
def avCeilRshift (a b : ℕ) : ℕ := (a + (1 <<< b) - 1) >>> b

/-- `config_input` (lines 155-182), restricted to the geometry state that
drives the plane copies: `stride` from `av_image_fill_linesizes`,
`planeheight[1] = planeheight[2] = AV_CEIL_RSHIFT(h, log2_chroma_h)`,
`planeheight[0] = planeheight[3] = h`, and `nb_planes` from
`av_pix_fmt_count_planes`.  (The buffer allocations for `temp` and the
two output slots have no observable effect on later plane copies and are
not modelled.) -/
def config_input (desc : PixFmtDesc) (w h : ℕ) (s : DetelecineContext) : DetelecineContext :=
  { s with stride := desc.linesizes w,
           planeheight := fun i => if i = 1 ∨ i = 2 then avCeilRshift h desc.log2_chroma_h else h,
           nb_planes := desc.nb_planes }

/-- Test fixture: a fully configured engine context built from an `init`
result, with top field first, one plane of two rows (stride 1), and a
timestamp unit of 1/1. -/
def testContext (r : InitResult) : DetelecineContext :=
  initContext r 0 1 1 1 (fun _ => 2) (fun _ => 1) [[0, 0]]

/-- Engine context compiled from pattern "23" with `start_frame = 0`. -/
def ctx23 : DetelecineContext := testContext ⟨[2, 3], 5, 4, 0, 0, AV_NOPTS_VALUE, 0⟩

/-- Engine context compiled from pattern "20" with `start_frame = 0`. -/
def ctx20 : DetelecineContext := testContext ⟨[2, 0], 2, 4, 0, 0, AV_NOPTS_VALUE, 0⟩

/-- Engine context compiled from pattern "4" with `start_frame = 0`. -/
def ctx4 : DetelecineContext := testContext ⟨[4], 4, 2, 0, 0, AV_NOPTS_VALUE, 0⟩

/-- Test input frame number `k` with timestamp `p`: one plane of two
distinct rows, distinct from every other test frame's rows. -/
def inFr (k : ℕ) (p : ℤ) : InFrame := ⟨[[10 * k, 10 * k + 1]], p⟩

theorem searchFrom_fst_eq_zero_iff (l : List ℕ) (p : ℕ) :
    (searchFrom l p).1 = 0 ↔ ∀ d ∈ l, d = 0 := by
  induction l generalizing p with
  | nil => simp [searchFrom]
  | cons d ds ih =>
    by_cases hd : d = 0
    · subst hd; simp [searchFrom, ih]
    · simp [searchFrom, hd]

theorem normPos_lt (pat : List ℕ) (q : ℕ) (h : 0 < pat.length) :
    normPos pat q < pat.length := by
  unfold normPos; split_ifs with h1 <;> omega

theorem consumeSpecial_state (s : DetelecineContext) (len : ℕ) :
    (consumeSpecial s len).state.pattern = s.pattern ∧
    (consumeSpecial s len).state.start_time = s.start_time ∧
    (consumeSpecial s len).state.ts_unit_num = s.ts_unit_num ∧
    (consumeSpecial s len).state.ts_unit_den = s.ts_unit_den ∧
    (consumeSpecial s len).state.frame_count_in = s.frame_count_in ∧
    (consumeSpecial s len).built.length ≤ 1 := by
  unfold consumeSpecial; split_ifs <;> simp

theorem consumeSpecial_pos (s : DetelecineContext) (len : ℕ)
    (h : s.pattern_pos < s.pattern.length) :
    (consumeSpecial s len).state.pattern_pos < s.pattern.length := by
  unfold consumeSpecial; split_ifs with h1
  · simpa using normPos_lt s.pattern _ (by omega)
  · simpa using h

theorem consumeSpecial_built_or (s : DetelecineContext) (len : ℕ) :
    (consumeSpecial s len).built ≠ [] ∨
    ((consumeSpecial s len).built = [] ∧ (consumeSpecial s len).len = len) := by
  unfold consumeSpecial; split_ifs <;> simp

theorem consumeMain_state (s : DetelecineContext) (inp : PFrame) (len : ℕ) :
    (consumeMain s inp len).state.pattern = s.pattern ∧
    (consumeMain s inp len).state.pattern_pos = s.pattern_pos ∧
    (consumeMain s inp len).state.start_time = s.start_time ∧
    (consumeMain s inp len).state.ts_unit_num = s.ts_unit_num ∧
    (consumeMain s inp len).state.ts_unit_den = s.ts_unit_den ∧
    (consumeMain s inp len).state.frame_count_in = s.frame_count_in ∧
    (consumeMain s inp len).built.length ≤ 1 := by
  unfold consumeMain; split_ifs <;> simp

theorem consumeMain_built_ne (s : DetelecineContext) (inp : PFrame) (len : ℕ)
    (h : len ≠ 0) : (consumeMain s inp len).built ≠ [] := by
  unfold consumeMain; split_ifs <;> simp_all <;> omega

theorem consumePost_state (s : DetelecineContext) (len : ℕ) :
    (consumePost s len).pattern = s.pattern ∧
    (consumePost s len).pattern_pos = s.pattern_pos ∧
    (consumePost s len).start_time = s.start_time ∧
    (consumePost s len).ts_unit_num = s.ts_unit_num ∧
    (consumePost s len).ts_unit_den = s.ts_unit_den ∧
    (consumePost s len).frame_count_in = s.frame_count_in := by
  unfold consumePost; split_ifs <;> simp

theorem consumeStep_state (s : DetelecineContext) (inp : PFrame) :
    (consumeStep s inp).state.pattern = s.pattern ∧
    (consumeStep s inp).state.start_time = s.start_time ∧
    (consumeStep s inp).state.ts_unit_num = s.ts_unit_num ∧
    (consumeStep s inp).state.ts_unit_den = s.ts_unit_den ∧
    (consumeStep s inp).state.frame_count_in = s.frame_count_in ∧
    (consumeStep s inp).built.length ≤ 2 := by
  simp only [consumeStep]
  set r := searchLen s.pattern s.pattern_pos s.init_len with hr
  set s1 : DetelecineContext :=
    { s with init_len := 0, pattern_pos := normPos s.pattern r.2 } with hs1
  split_ifs with h
  · simp [hs1]
  · obtain ⟨a1, a2, a3, a4, a5, a6⟩ := consumeSpecial_state s1 r.1
    obtain ⟨b1, b2, b3, b4, b5, b6, b7⟩ :=
      consumeMain_state (consumeSpecial s1 r.1).state inp (consumeSpecial s1 r.1).len
    obtain ⟨c1, c2, c3, c4, c5, c6⟩ :=
      consumePost_state (consumeMain (consumeSpecial s1 r.1).state inp
        (consumeSpecial s1 r.1).len).state
        (consumeMain (consumeSpecial s1 r.1).state inp (consumeSpecial s1 r.1).len).len
    refine ⟨?_, ?_, ?_, ?_, ?_, ?_⟩ <;>
      simp_all [hs1, List.length_append] <;> omega

theorem consumeStep_pos (s : DetelecineContext) (inp : PFrame)
    (hL : 0 < s.pattern.length) :
    (consumeStep s inp).state.pattern_pos < s.pattern.length := by
  simp only [consumeStep]
  set r := searchLen s.pattern s.pattern_pos s.init_len with hr
  set s1 : DetelecineContext :=
    { s with init_len := 0, pattern_pos := normPos s.pattern r.2 } with hs1
  have hL1 : s1.pattern = s.pattern := by simp [hs1]
  have hpos : s1.pattern_pos < s1.pattern.length := by
    simp only [hs1]; exact normPos_lt s.pattern _ hL
  split_ifs with h
  · simpa [hL1] using hpos
  · obtain ⟨a1, -, -, -, -, -⟩ := consumeSpecial_state s1 r.1
    obtain ⟨b1, b2, -, -, -, -, -⟩ :=
      consumeMain_state (consumeSpecial s1 r.1).state inp (consumeSpecial s1 r.1).len
    obtain ⟨-, c2, -, -, -, -⟩ :=
      consumePost_state (consumeMain (consumeSpecial s1 r.1).state inp
        (consumeSpecial s1 r.1).len).state
        (consumeMain (consumeSpecial s1 r.1).state inp (consumeSpecial s1 r.1).len).len
    have hspos := consumeSpecial_pos s1 r.1 hpos
    simp only [c2, b2]
    simpa [hL1] using hspos

theorem consumeStep_built_eq_nil_iff (s : DetelecineContext) (inp : PFrame) :
    (consumeStep s inp).built = [] ↔
      (searchLen s.pattern s.pattern_pos s.init_len).1 = 0 := by
  simp only [consumeStep]
  set r := searchLen s.pattern s.pattern_pos s.init_len with hr
  set s1 : DetelecineContext :=
    { s with init_len := 0, pattern_pos := normPos s.pattern r.2 } with hs1
  split_ifs with h
  · simp [h]
  · simp only [h, iff_false]
    rcases consumeSpecial_built_or s1 r.1 with hb | ⟨hb, hl⟩
    · simp [hb]
    · have := consumeMain_built_ne (consumeSpecial s1 r.1).state inp
        (consumeSpecial s1 r.1).len (by rw [hl]; exact h)
      simp [hb, this]

theorem consumeStep_freed (s : DetelecineContext) (inp : PFrame) :
    (consumeStep s inp).freed = true := by
  simp only [consumeStep]; split_ifs <;> rfl

theorem emitFrames_length (base num den : ℤ) (n : ℕ) (l : List PFrame) :
    (emitFrames base num den n l).length = l.length := by
  induction l generalizing n with
  | nil => rfl
  | cons f fs ih => simp [emitFrames, ih]

theorem emitFrames_pts_at (base num den : ℤ) (l : List PFrame) (n k : ℕ)
    (hk : k < l.length) :
    ((emitFrames base num den n l).get? k).map OutFrame.pts =
      some (base + avRescale (n + k) num den) := by
  induction l generalizing n k with
  | nil => simp at hk
  | cons f fs ih =>
    cases k with
    | zero => simp [emitFrames]
    | succ k =>
      have hk' : k < fs.length := by simpa using hk
      have hstep : (emitFrames base num den n (f :: fs)).get? (k + 1) =
          (emitFrames base num den (n + 1) fs).get? k := by
        simp [emitFrames]
      rw [hstep, ih _ _ hk']
      have : n + 1 + k = n + (k + 1) := by omega
      rw [this]

theorem avRescale_mono (b c : ℤ) (hb : 0 ≤ b) (hc : 0 < c) {m n : ℕ}
    (h : m ≤ n) : avRescale m b c ≤ avRescale n b c := by
  unfold avRescale
  apply Int.ediv_le_ediv hc
  have hmn : (m : ℤ) * b ≤ (n : ℤ) * b := by
    apply mul_le_mul_of_nonneg_right _ hb
    exact_mod_cast h
  omega

theorem captureStart_fields (s : DetelecineContext) (p : ℤ) :
    (captureStart s p).start_time =
      (if s.start_time = AV_NOPTS_VALUE then p else s.start_time) ∧
    (captureStart s p).ts_unit_num = s.ts_unit_num ∧
    (captureStart s p).ts_unit_den = s.ts_unit_den ∧
    (captureStart s p).pattern = s.pattern ∧
    (captureStart s p).pattern_pos = s.pattern_pos ∧
    (captureStart s p).nskip_fields = s.nskip_fields ∧
    (captureStart s p).frame_count_in = s.frame_count_in ∧
    (captureStart s p).init_len = s.init_len := by
  unfold captureStart; split_ifs <;> simp_all

theorem filter_frame_body_spec (s : DetelecineContext) (inp : PFrame) :
    (filter_frame_body s inp).state.start_time = s.start_time ∧
    (filter_frame_body s inp).state.ts_unit_num = s.ts_unit_num ∧
    (filter_frame_body s inp).state.ts_unit_den = s.ts_unit_den ∧
    (filter_frame_body s inp).state.pattern = s.pattern ∧
    (filter_frame_body s inp).state.frame_count_in =
      s.frame_count_in + (filter_frame_body s inp).outputs.length ∧
    (filter_frame_body s inp).outputs.length ≤ 2 ∧
    ∀ k : ℕ, k < (filter_frame_body s inp).outputs.length →
      ((filter_frame_body s inp).outputs.get? k).map OutFrame.pts =
        some ((if s.start_time = AV_NOPTS_VALUE then 0 else s.start_time) +
          avRescale (s.frame_count_in + k) s.ts_unit_num s.ts_unit_den) := by
  simp only [filter_frame_body]
  by_cases h1 : 2 ≤ s.nskip_fields
  · simp only [if_pos h1]
    refine ⟨by simp, by simp, by simp, by simp, by simp, by simp, ?_⟩
    intro k hk
    simp at hk
  by_cases h2 : 1 ≤ s.nskip_fields
  · simp only [if_neg h1, if_pos h2]
    refine ⟨by simp, by simp, by simp, by simp, by simp, by simp, ?_⟩
    intro k hk
    simp at hk
  · simp only [if_neg h1, if_neg h2]
    obtain ⟨c1, c2, c3, c4, c5, c6⟩ := consumeStep_state s inp
    refine ⟨by simp [c2], by simp [c3], by simp [c4], by simp [c1],
            by simp [emitFrames_length, c5], by simp [emitFrames_length, c6], ?_⟩
    intro k hk
    simp only [emitFrames_length] at hk
    rw [emitFrames_pts_at _ _ _ _ _ _ (by simpa [emitFrames_length] using hk)]
    rw [c2, c3, c4, c5]

theorem filter_frame_body_pos (s : DetelecineContext) (inp : PFrame)
    (hL : 0 < s.pattern.length)
    (hP : s.pattern_pos < s.pattern.length ∨ s.nskip_fields = 0) :
    (filter_frame_body s inp).state.pattern_pos < s.pattern.length := by
  simp only [filter_frame_body]
  by_cases h1 : 2 ≤ s.nskip_fields
  · simp only [if_pos h1]
    rcases hP with h | h
    · exact h
    · omega
  by_cases h2 : 1 ≤ s.nskip_fields
  · simp only [if_neg h1, if_pos h2]
    rcases hP with h | h
    · exact h
    · omega
  · simp only [if_neg h1, if_neg h2]
    simpa using consumeStep_pos s inp hL

theorem filter_frame_spec (s : DetelecineContext) (f : InFrame) :
    (filter_frame s f).state.start_time =
      (if s.start_time = AV_NOPTS_VALUE then f.pts else s.start_time) ∧
    (filter_frame s f).state.ts_unit_num = s.ts_unit_num ∧
    (filter_frame s f).state.ts_unit_den = s.ts_unit_den ∧
    (filter_frame s f).state.pattern = s.pattern ∧
    (filter_frame s f).state.frame_count_in =
      s.frame_count_in + (filter_frame s f).outputs.length ∧
    (filter_frame s f).outputs.length ≤ 2 ∧
    ∀ k : ℕ, k < (filter_frame s f).outputs.length →
      ((filter_frame s f).outputs.get? k).map OutFrame.pts =
        some ((if (if s.start_time = AV_NOPTS_VALUE then f.pts else s.start_time) =
            AV_NOPTS_VALUE then 0
          else (if s.start_time = AV_NOPTS_VALUE then f.pts else s.start_time)) +
          avRescale (s.frame_count_in + k) s.ts_unit_num s.ts_unit_den) := by
  obtain ⟨p1, p2, p3, p4, p5, p6, p7, p8⟩ := captureStart_fields s f.pts
  obtain ⟨b1, b2, b3, b4, b5, b6, b7⟩ :=
    filter_frame_body_spec (captureStart s f.pts) f.content
  unfold filter_frame
  refine ⟨b1.trans p1, b2.trans p2, b3.trans p3, b4.trans p4, ?_, b6, ?_⟩
  · rw [b5, p7]
  · intro k hk
    rw [b7 k hk, p1, p2, p3, p7]

theorem runEngine_state (s : DetelecineContext) (inputs : List InFrame)
    (h : s.start_time ≠ AV_NOPTS_VALUE) :
    (runEngine s inputs).1.start_time = s.start_time ∧
    (runEngine s inputs).1.frame_count_in =
      s.frame_count_in + (runEngine s inputs).2.length ∧
    ∀ k : ℕ, k < (runEngine s inputs).2.length →
      ((runEngine s inputs).2.get? k).map OutFrame.pts =
        some (s.start_time +
          avRescale (s.frame_count_in + k) s.ts_unit_num s.ts_unit_den) := by
  induction inputs generalizing s with
  | nil => simp [runEngine]
  | cons f fs ih =>
    obtain ⟨e1, e2, e3, e4, e5, e6, e7⟩ := filter_frame_spec s f
    rw [if_neg h] at e1
    have h' : (filter_frame s f).state.start_time ≠ AV_NOPTS_VALUE := by
      rw [e1]; exact h
    obtain ⟨i1, i2, i3⟩ := ih (filter_frame s f).state h'
    refine ⟨?_, ?_, ?_⟩
    · simp only [runEngine]
      rw [i1, e1]
    · simp only [runEngine, List.length_append]
      rw [i2, e5]
      omega
    · intro k hk
      simp only [runEngine, List.length_append] at hk ⊢
      by_cases hcase : k < (filter_frame s f).outputs.length
      · rw [List.get?_append hcase]
        have hf := e7 k hcase
        rw [if_neg h, if_neg h] at hf
        exact hf
      · push_neg at hcase
        rw [List.get?_append_right hcase]
        have hr := i3 (k - (filter_frame s f).outputs.length) (by omega)
        rw [e1, e2, e3, e5] at hr
        have hidx : s.frame_count_in + (filter_frame s f).outputs.length +
            (k - (filter_frame s f).outputs.length) = s.frame_count_in + k := by
          omega
        rw [hidx] at hr
        exact hr

theorem emitFrames_eq_nil (base num den : ℤ) (n : ℕ) (l : List PFrame) :
    emitFrames base num den n l = [] ↔ l = [] := by
  cases l <;> simp [emitFrames]

theorem init_ok_fields (pat : String) (sf : ℕ) (r : InitResult)
    (h : init pat sf = .ok r) :
    r.digits = digitsOf pat ∧ r.pts_num = (digitsOf pat).sum ∧
    r.pts_den = 2 * (digitsOf pat).length ∧ r.nskip_fields = 0 ∧
    r.start_time = AV_NOPTS_VALUE ∧ sf < (digitsOf pat).sum ∧
    0 < (digitsOf pat).length := by
  simp only [init] at h
  split_ifs at h with h1 h2 h3 h4 <;>
    first
      | exact Except.noConfusion h
      | (injection h with h
         subst h
         exact ⟨rfl, rfl, rfl, rfl, rfl, by omega,
           by simp only [digitsOf, List.length_map]; omega⟩)

theorem runEngine_pos (s : DetelecineContext) (inputs : List InFrame)
    (hL : 0 < s.pattern.length)
    (hP : s.pattern_pos < s.pattern.length ∨ s.nskip_fields = 0)
    (hne : inputs ≠ []) :
    (runEngine s inputs).1.pattern = s.pattern ∧
    (runEngine s inputs).1.pattern_pos < s.pattern.length := by
  induction inputs generalizing s with
  | nil => exact absurd rfl hne
  | cons f fs ih =>
    obtain ⟨p1, p2, p3, p4, p5, p6, p7, p8⟩ := captureStart_fields s f.pts
    have hpos : (filter_frame s f).state.pattern_pos < s.pattern.length := by
      have hb := filter_frame_body_pos (captureStart s f.pts) f.content
        (by rw [p4]; exact hL) (by rw [p5, p4, p6]; exact hP)
      rw [p4] at hb
      simpa only [filter_frame] using hb
    have hpat : (filter_frame s f).state.pattern = s.pattern :=
      (filter_frame_spec s f).2.2.2.1
    cases fs with
    | nil =>
      simp only [runEngine]
      exact ⟨hpat, hpos⟩
    | cons g gs =>
      have hr := ih (filter_frame s f).state
        (by rw [hpat]; exact hL)
        (Or.inl (by rw [hpat]; exact hpos))
        (by simp)
      simp only [runEngine] at hr ⊢
      rw [hpat] at hr
      exact hr

theorem runEngine_pts_first (s : DetelecineContext) (f : InFrame)
    (fs : List InFrame) (h0 : s.frame_count_in = 0)
    (h1 : s.start_time = AV_NOPTS_VALUE) (hfp : f.pts ≠ AV_NOPTS_VALUE) :
    ∀ k : ℕ, k < (runEngine s (f :: fs)).2.length →
      ((runEngine s (f :: fs)).2.get? k).map OutFrame.pts =
        some (f.pts + avRescale k s.ts_unit_num s.ts_unit_den) := by
  obtain ⟨e1, e2, e3, e4, e5, e6, e7⟩ := filter_frame_spec s f
  rw [if_pos h1] at e1
  have h' : (filter_frame s f).state.start_time ≠ AV_NOPTS_VALUE := by
    rw [e1]; exact hfp
  obtain ⟨i1, i2, i3⟩ := runEngine_state (filter_frame s f).state fs h'
  intro k hk
  simp only [runEngine, List.length_append] at hk ⊢
  by_cases hcase : k < (filter_frame s f).outputs.length
  · rw [List.get?_append hcase]
    have hf := e7 k hcase
    rw [if_pos h1, if_neg hfp, h0] at hf
    simpa using hf
  · push_neg at hcase
    rw [List.get?_append_right hcase]
    have hr := i3 (k - (filter_frame s f).outputs.length) (by omega)
    rw [e1, e2, e3, e5, h0] at hr
    have hidx : 0 + (filter_frame s f).outputs.length +
        (k - (filter_frame s f).outputs.length) = k := by omega
    rw [hidx] at hr
    exact hr

theorem pts_chain_of_formula (l : List OutFrame) (b num den : ℤ)
    (hnum : 0 ≤ num) (hden : 0 < den)
    (hf : ∀ k : ℕ, k < l.length → (l.get? k).map OutFrame.pts =
      some (b + avRescale k num den)) :
    (l.map OutFrame.pts).Chain' (· ≤ ·) := by
  rw [List.chain'_iff_get]
  intro i hi
  simp only [List.length_map] at hi
  have hi1 : i < l.length := by omega
  have hi2 : i + 1 < l.length := by omega
  have f1 := hf i hi1
  have f2 := hf (i + 1) hi2
  rw [List.get?_eq_get hi1] at f1
  rw [List.get?_eq_get hi2] at f2
  simp only [Option.map_some'] at f1 f2
  have p1 := Option.some.inj f1
  have p2 := Option.some.inj f2
  rw [List.get_map, List.get_map, p1, p2]
  exact add_le_add_left (avRescale_mono num den hnum hden (Nat.le_succ i)) b

/-- C1 (counterexample): for the compiled pattern "23" the multiplier
`pts = S:(2L) = 5/4`; with input rate 30 and time base 1/30 the code
produces output rate `30 * (5/4)⁻¹ = 24` and time base
`(1/30) * (5/4) = 1/24` — not rate × multiplier (which would be 75/2) and
not time base × inverse multiplier (which would be 2/75), refuting the
claim's assignment of the multiplier and its inverse. -/
theorem config_output_multiplier_swap :
    init "23" 0 = .ok ⟨[2, 3], 5, 4, 0, 0, AV_NOPTS_VALUE, 0⟩ ∧
    config_output 30 (1 / 30) ((5 : ℚ) / 4) = some ⟨24, 1 / 24, 1⟩ ∧
    (24 : ℚ) ≠ 30 * ((5 : ℚ) / 4) ∧
    ((1 : ℚ) / 24) ≠ (1 / 30) * ((4 : ℚ) / 5) :=
  ⟨rfl, by norm_num [config_output], by norm_num, by norm_num⟩

/-- C1 (amended): rate negotiation multiplies the input frame rate by the
INVERSE of the pattern multiplier S:(2L) — that is, by (2L)/S — and the
input time base by the multiplier S/(2L) itself, both as exact
rationals; the derived timestamp unit equals `(rate * time_base)⁻¹`. -/
theorem config_output_exact_rationals (pat : String) (sf : ℕ) (r : InitResult)
    (h : init pat sf = .ok r) (rate tb : ℚ) (hrate : rate ≠ 0) :
    config_output rate tb ((r.pts_num : ℚ) / (r.pts_den : ℚ)) =
      some { frame_rate :=
               rate * (((2 * (digitsOf pat).length : ℕ) : ℚ) / ((digitsOf pat).sum : ℚ)),
             time_base :=
               tb * (((digitsOf pat).sum : ℚ) / ((2 * (digitsOf pat).length : ℕ) : ℚ)),
             ts_unit := (rate * tb)⁻¹ } := by
  obtain ⟨-, hnum, hden, -, -, hsum, hlen⟩ := init_ok_fields pat sf r h
  have hS : (((digitsOf pat).sum : ℕ) : ℚ) ≠ 0 := by
    have hx : 0 < (digitsOf pat).sum := by omega
    exact_mod_cast hx.ne'
  have hL : (((2 * (digitsOf pat).length : ℕ)) : ℚ) ≠ 0 := by
    have hx : 0 < 2 * (digitsOf pat).length := by omega
    exact_mod_cast hx.ne'
  rw [hnum, hden]
  simp only [config_output, if_neg hrate]
  congr 1
  have hpts : ((((digitsOf pat).sum : ℕ) : ℚ) /
      (((2 * (digitsOf pat).length : ℕ)) : ℚ))⁻¹ =
      ((((2 * (digitsOf pat).length : ℕ)) : ℚ)) / (((digitsOf pat).sum : ℕ) : ℚ) :=
    inv_div _ _
  congr 1
  · rw [hpts]
  · rw [hpts]
    congr 1
    set a : ℚ := (((digitsOf pat).sum : ℕ) : ℚ) with hadef
    set b : ℚ := (((2 * (digitsOf pat).length : ℕ)) : ℚ) with hbdef
    field_simp
    ring

/-- Witness for C1's amended theorem at pattern "23", rate 30, tb 1/30. -/
theorem config_output_exact_rationals_witness :
    config_output 30 (1 / 30) (((5 : ℕ) : ℚ) / ((4 : ℕ) : ℚ)) =
      some { frame_rate :=
               30 * (((2 * (digitsOf "23").length : ℕ) : ℚ) / ((digitsOf "23").sum : ℚ)),
             time_base :=
               (1 / 30) * (((digitsOf "23").sum : ℚ) / ((2 * (digitsOf "23").length : ℕ) : ℚ)),
             ts_unit := ((30 : ℚ) * (1 / 30))⁻¹ } :=
  config_output_exact_rationals "23" 0 ⟨[2, 3], 5, 4, 0, 0, AV_NOPTS_VALUE, 0⟩ rfl
    30 (1 / 30) (by norm_num)

/-- C2 (counterexample): for pattern "22" the cycle produces
`S / 2 = 4 / 2 = 2` frames; the claim says a phase offset equal to the
cycle frame count (2) must be rejected with InvalidPhase, but `init`
accepts it (the code's check is `start_frame >= sum`, i.e. against the
FIELD count 4, not the frame count 2). -/
theorem init_phase_half_cycle_accepted :
    init "22" 2 = .ok ⟨[2, 2], 4, 4, 0, 2, AV_NOPTS_VALUE, 0⟩ ∧
    ([2, 2] : List ℕ).sum / 2 ≤ 2 :=
  ⟨rfl, by decide⟩

/-- C2 (amended): for every non-empty all-digit pattern string with digit
sum S, initialization fails with InvalidPhase if and only if the phase
offset is `>= S` (the number of FIELDS in one pattern cycle); offset
`S - 1` is accepted and offset `S` is rejected. -/
theorem init_phase_rejects_iff_ge_sum (pat : String) (sf : ℕ)
    (h1 : pat.data ≠ []) (h2 : pat.data.all Char.isDigit = true) :
    init pat sf = .error .invalidPhase ↔ (digitsOf pat).sum ≤ sf := by
  have h1' : ¬ pat.data.length = 0 := fun hx => h1 (List.length_eq_zero.mp hx)
  simp only [init]
  rw [if_neg h1', if_neg (by simp [h2])]
  split_ifs with h3
  · simp [h3]
  · constructor
    · intro hx
      exact absurd hx (by simp)
    · intro hx
      exact absurd hx h3

/-- Witness for C2's amended theorem: pattern "23" (S = 5) rejects
offset 5. -/
theorem init_phase_rejects_iff_ge_sum_witness :
    init "23" 5 = .error .invalidPhase :=
  (init_phase_rejects_iff_ge_sum "23" 5 (by decide) (by decide)).mpr (by decide)

/-- C3 (counterexample): pattern "20" contains the non-zero digit 2, yet
the second `filter_frame` call (a Consume call: its skip counter is 0)
discards its input frame and produces no output, because the search loop
does not wrap around within a call: it scans only from the cursor
(position 1) to the end of the pattern, sees the single 0, and gives up. -/
theorem consume_discard_with_nonzero_pattern :
    init "20" 0 = .ok ⟨[2, 0], 2, 4, 0, 0, AV_NOPTS_VALUE, 0⟩ ∧
    (2 : ℕ) ∈ ctx20.pattern ∧
    (filter_frame ctx20 (inFr 1 100)).state.nskip_fields = 0 ∧
    (filter_frame (filter_frame ctx20 (inFr 1 100)).state (inFr 2 101)).outputs = [] ∧
    (filter_frame (filter_frame ctx20 (inFr 1 100)).state (inFr 2 101)).freed = true :=
  ⟨rfl, by decide, by decide, by decide, by decide⟩

/-- C3 (amended): in a Consume call (skip counter 0, no residual
`init_len`), the search loop scans from the pattern cursor to the END of
the pattern without wrap-around (resetting the cursor to 0 for the next
call); the input frame is discarded with no output exactly when every
pattern digit from the cursor to the end of the pattern is zero — not
only when the entire pattern consists of zeros. -/
theorem consume_discard_iff_zero_suffix (s : DetelecineContext) (f : InFrame)
    (h1 : s.nskip_fields = 0) (h2 : s.init_len = 0) :
    ((filter_frame s f).outputs = [] ∧ (filter_frame s f).freed = true) ↔
      ∀ d ∈ s.pattern.drop s.pattern_pos, d = 0 := by
  obtain ⟨p1, p2, p3, p4, p5, p6, p7, p8⟩ := captureStart_fields s f.pts
  have hn2 : ¬ 2 ≤ (captureStart s f.pts).nskip_fields := by rw [p6, h1]; omega
  have hn1 : ¬ 1 ≤ (captureStart s f.pts).nskip_fields := by rw [p6, h1]; omega
  have hff : filter_frame s f = filter_frame_body (captureStart s f.pts) f.content := rfl
  rw [hff]
  simp only [filter_frame_body, if_neg hn2, if_neg hn1]
  rw [consumeStep_freed]
  rw [emitFrames_eq_nil, consumeStep_built_eq_nil_iff]
  rw [p4, p5, p8, h2]
  simp only [searchLen, eq_self_iff_true, if_true]
  rw [searchFrom_fst_eq_zero_iff]
  simp

/-- Witness for C3's amended theorem: after the first call on pattern
"20" the cursor is at 1 and the remaining suffix is all zero, so the
second call discards its input with no output. -/
theorem consume_discard_iff_zero_suffix_witness :
    (filter_frame (filter_frame ctx20 (inFr 1 100)).state (inFr 2 101)).outputs = [] ∧
    (filter_frame (filter_frame ctx20 (inFr 1 100)).state (inFr 2 101)).freed = true :=
  (consume_discard_iff_zero_suffix (filter_frame ctx20 (inFr 1 100)).state
    (inFr 2 101) (by decide) (by decide)).mpr (by decide)

/-- C4 (counterexample): in the first cycle of pattern "23" (phase 0,
top field first) the second emitted frame is a VERBATIM copy of input
frame 2 (both of its rows come from input 2) — it is not built by
interleaving fields across two input frames: it differs from the
interleavings of inputs 2 and 3 in either order.  Interleaving first
happens in the second cycle (third output, combining inputs 4 and 3). -/
theorem pattern23_second_output_not_interleaved :
    ((runEngine ctx23 [inFr 1 100, inFr 2 101, inFr 3 102, inFr 4 103,
        inFr 5 104]).2.getD 1 ⟨[], 0⟩).content = (inFr 2 101).content ∧
    ((runEngine ctx23 [inFr 1 100, inFr 2 101, inFr 3 102, inFr 4 103,
        inFr 5 104]).2.getD 1 ⟨[], 0⟩).content ≠
      interleaveFrame ctx23 (inFr 2 101).content (inFr 3 102).content ∧
    ((runEngine ctx23 [inFr 1 100, inFr 2 101, inFr 3 102, inFr 4 103,
        inFr 5 104]).2.getD 1 ⟨[], 0⟩).content ≠
      interleaveFrame ctx23 (inFr 3 102).content (inFr 2 101).content :=
  ⟨by decide, by decide, by decide⟩

/-- C4 (amended): for pattern "23", phase offset 0, top field first,
feeding five consecutive distinct input frames yields exactly 2 output
frames for the first full cycle (4 over all five inputs): a 2-field
frame emitted verbatim (a copy of input 1), then the 3-field frame ALSO
emitted verbatim (a copy of input 2) since the carry-over buffer is
still empty in the first cycle; input 3 contributes the stray field
carried into the next cycle, whose outputs (copies interleaving inputs
4/3 and 5/4) are where cross-frame interleaving first appears.  Output
count, contents and emission order are functions of the input count
alone. -/
theorem pattern23_first_cycle_outputs :
    init "23" 0 = .ok ⟨[2, 3], 5, 4, 0, 0, AV_NOPTS_VALUE, 0⟩ ∧
    (runEngine ctx23 [inFr 1 100, inFr 2 101, inFr 3 102, inFr 4 103,
        inFr 5 104]).2 =
      [⟨[[10, 11]], 100⟩, ⟨[[20, 21]], 101⟩, ⟨[[40, 31]], 102⟩,
       ⟨[[50, 41]], 103⟩] :=
  ⟨rfl, by decide⟩

/-- C5: for every configured engine state with a nonnegative exact
timestamp unit and every input sequence with strictly increasing valid
timestamps, the n-th emitted output frame (0-based, in call order)
carries pts `first_pts + round(n * ts_unit)` (`avRescale`), and the
emitted timestamps are non-decreasing. -/
theorem output_pts_formula_and_monotone (s : DetelecineContext) (f : InFrame)
    (fs : List InFrame) (h0 : s.frame_count_in = 0)
    (h1 : s.start_time = AV_NOPTS_VALUE) (hnum : 0 ≤ s.ts_unit_num)
    (hden : 0 < s.ts_unit_den) (hfp : f.pts ≠ AV_NOPTS_VALUE)
    (hinc : ((f :: fs).map InFrame.pts).Chain' (· < ·)) :
    (∀ k : ℕ, k < (runEngine s (f :: fs)).2.length →
      (((runEngine s (f :: fs)).2.get? k).map OutFrame.pts) =
        some (f.pts + avRescale k s.ts_unit_num s.ts_unit_den)) ∧
    ((runEngine s (f :: fs)).2.map OutFrame.pts).Chain' (· ≤ ·) := by
  have hfor := runEngine_pts_first s f fs h0 h1 hfp
  exact ⟨hfor, pts_chain_of_formula _ f.pts _ _ hnum hden hfor⟩

/-- Witness for C5 at pattern "23" with timestamps 100, 101, 102. -/
theorem output_pts_formula_and_monotone_witness :
    ((runEngine ctx23 [inFr 1 100, inFr 2 101, inFr 3 102]).2.map
        OutFrame.pts).Chain' (· ≤ ·) :=
  (output_pts_formula_and_monotone ctx23 (inFr 1 100) [inFr 2 101, inFr 3 102]
    rfl rfl (by decide) (by decide) (by decide)
    (by simp [inFr, List.chain'_cons])).2

/-- C6: a single `filter_frame` invocation produces at most two output
frames, for every engine state (in particular every reachable one) and
every input frame. -/
theorem filter_frame_at_most_two_outputs (s : DetelecineContext) (f : InFrame) :
    (filter_frame s f).outputs.length ≤ 2 :=
  (filter_frame_spec s f).2.2.2.2.2.1

/-- C7 (code bug): the SkipMany branch (`nskip_fields >= 2`, reached here
as the second call on pattern "4") and the SkipOne branch
(`nskip_fields == 1`, reached as the third call on pattern "23") return
with no output and WITHOUT `av_frame_free(&inpicref)` — the `freed` flag
faithfully records whether the path taken executed
`av_frame_free(&inpicref)` — so the input frame's ownership is not
released on those paths, unlike every other no-output path. -/
theorem skip_paths_do_not_free_input :
    (filter_frame ctx4 (inFr 1 100)).state.nskip_fields = 2 ∧
    (filter_frame (filter_frame ctx4 (inFr 1 100)).state (inFr 2 101)).outputs = [] ∧
    (filter_frame (filter_frame ctx4 (inFr 1 100)).state (inFr 2 101)).freed = false ∧
    (filter_frame (filter_frame ctx23 (inFr 1 100)).state
        (inFr 2 101)).state.nskip_fields = 1 ∧
    (filter_frame (filter_frame (filter_frame ctx23 (inFr 1 100)).state
        (inFr 2 101)).state (inFr 3 102)).outputs = [] ∧
    (filter_frame (filter_frame (filter_frame ctx23 (inFr 1 100)).state
        (inFr 2 101)).state (inFr 3 102)).freed = false :=
  ⟨by decide, by decide, by decide, by decide, by decide, by decide⟩

/-- C8 (counterexample): when the very first input frame's pts is
`AV_NOPTS_VALUE`, the capture stores that sentinel, so the stored start
time is still "unset" after the first call and IS modified by the second
call (to 5 here) — refuting "captured once on the first call and
immutable thereafter, regardless of the first frame's timestamp value". -/
theorem start_time_recaptured_after_nopts :
    (filter_frame ctx23 ⟨[[10, 11]], AV_NOPTS_VALUE⟩).state.start_time =
      AV_NOPTS_VALUE ∧
    (filter_frame (filter_frame ctx23 ⟨[[10, 11]], AV_NOPTS_VALUE⟩).state
        ⟨[[20, 21]], 5⟩).state.start_time = 5 ∧
    (5 : ℤ) ≠ AV_NOPTS_VALUE :=
  ⟨by decide, by decide, by decide⟩

/-- C8 (amended): `start_time` is (re)assigned on any call entered while
it still equals `AV_NOPTS_VALUE`; once it holds any other value — which
happens on the first frame whose pts is a valid timestamp — it is never
modified by a later call. -/
theorem start_time_immutable_once_set (s : DetelecineContext) (f : InFrame)
    (h : s.start_time ≠ AV_NOPTS_VALUE) :
    (filter_frame s f).state.start_time = s.start_time := by
  have hx := (filter_frame_spec s f).1
  rwa [if_neg h] at hx

/-- Witness for C8's amended theorem at a state whose start time is 7. -/
theorem start_time_immutable_once_set_witness :
    (filter_frame { ctx23 with start_time := 7 } (inFr 1 100)).state.start_time =
      ({ ctx23 with start_time := 7 } : DetelecineContext).start_time :=
  start_time_immutable_once_set { ctx23 with start_time := 7 } (inFr 1 100)
    (by decide)

/-- C9: running the stream-geometry setup twice with the same pixel
format descriptor, width and height leaves the state that drives plane
copies — per-plane stride, per-plane height and plane count — identical
to running it once, so plane-copy behavior is unchanged. -/
theorem config_input_idempotent (desc : PixFmtDesc) (w h : ℕ)
    (s : DetelecineContext) :
    (config_input desc w h (config_input desc w h s)).stride =
      (config_input desc w h s).stride ∧
    (config_input desc w h (config_input desc w h s)).planeheight =
      (config_input desc w h s).planeheight ∧
    (config_input desc w h (config_input desc w h s)).nb_planes =
      (config_input desc w h s).nb_planes :=
  ⟨rfl, rfl, rfl⟩

/-- C10: starting from any successfully initialized context (any pattern
and phase offset `init` accepts, any geometry and timestamp unit), after
every invocation of `filter_frame` — i.e. after processing any non-empty
input list — the pattern cursor is a valid index: strictly less than the
pattern length, even though the phase walk can leave the initial cursor
equal to the pattern length. -/
theorem pattern_pos_in_range_after_calls (pat : String) (sf : ℕ)
    (r : InitResult) (h : init pat sf = .ok r) (ff : ℕ) (tsn tsd : ℤ)
    (nbp : ℕ) (ph st : ℕ → ℕ) (tmp : PFrame) (inputs : List InFrame)
    (hne : inputs ≠ []) :
    (runEngine (initContext r ff tsn tsd nbp ph st tmp) inputs).1.pattern_pos <
      r.digits.length := by
  obtain ⟨d1, -, -, d4, -, -, d7⟩ := init_ok_fields pat sf r h
  have hL : 0 < (initContext r ff tsn tsd nbp ph st tmp).pattern.length := by
    simp only [initContext, d1]
    exact d7
  have hr := runEngine_pos (initContext r ff tsn tsd nbp ph st tmp) inputs hL
    (Or.inr (by simp [initContext, d4])) hne
  exact hr.2

/-- Witness for C10 at pattern "23", phase 2 (whose phase walk leaves the
initial cursor at the pattern length, 2) and one input frame. -/
theorem pattern_pos_in_range_after_calls_witness :
    (runEngine (initContext ⟨[2, 3], 5, 4, 0, 2, AV_NOPTS_VALUE, 1⟩ 0 1 1 1
        (fun _ => 2) (fun _ => 1) [[0, 0]]) [inFr 1 100]).1.pattern_pos <
      (⟨[2, 3], 5, 4, 0, 2, AV_NOPTS_VALUE, 1⟩ : InitResult).digits.length :=
  pattern_pos_in_range_after_calls "23" 2 ⟨[2, 3], 5, 4, 0, 2, AV_NOPTS_VALUE, 1⟩
    rfl 0 1 1 1 (fun _ => 2) (fun _ => 1) [[0, 0]] [inFr 1 100] (by decide)
